import Mathlib

/-!
Verification development for the murf-mcp installer (`installation.py`).

The script detects the host OS, checks the ffmpeg dependency, on Windows
downloads and registers ffmpeg (persistent user PATH in the registry and a
markered shell-profile block), and merges a server-launch entry into the
MCP client JSON configuration file.

Shallow embedding conventions:
- JSON documents are modelled by the inductive `Json`; Python dicts are
  association lists in insertion order, and dict assignment is `setKey`
  (replace in place when the key is present, append otherwise), matching
  CPython semantics.
- File and registry contents are `List Char`; the file system visible to
  `update_config_file` is an association list from path to parse result
  (`none` standing for a document that `json.load` rejects).
- `subprocess.run(..., check=True)` is modelled by `runChecked`, which
  fails exactly when the returncode is nonzero (`CalledProcessError`).
- `sys.exit(1)` is an explicit exit code in the result structures.
-/

namespace Installation

/-- JSON values as produced by `json.load`. Numbers are modelled as
integers, which suffices for every document these claims touch. -/
inductive Json where
  | null : Json
  | bool (b : Bool) : Json
  | num (n : Int) : Json
  | str (s : String) : Json
  | arr (xs : List Json) : Json
  | obj (kvs : List (String × Json)) : Json

/-- Python `dict.get k` / `d[k]` lookup on an association list. -/
def lookupKey (kvs : List (String × Json)) (k : String) : Option Json :=
  match kvs.find? (fun p => p.1 == k) with
  | none => none
  | some p => some p.2

/-- Python `d[k] = v` on an association list: an existing key keeps its
position and gets the new value; a new key is appended at the end. -/
def setKey (kvs : List (String × Json)) (k : String) (v : Json) :
    List (String × Json) :=
  if kvs.any (fun p => p.1 == k) then
    kvs.map (fun p => if p.1 == k then (k, v) else p)
  else kvs ++ [(k, v)]

/-- Top-level key lookup of a JSON document (none when the document is not
an object). -/
def topKey : Json → String → Option Json
  | .obj kvs, k => lookupKey kvs k
  | _, _ => none

/-- The entry the merger writes for a given server name: the `mcpServers`
value looked up at that name. -/
def serverEntryOf (d : Json) (name : String) : Option Json :=
  match topKey d "mcpServers" with
  | some (.obj servers) => lookupKey servers name
  | _ => none

/-- The ServerEntry built at installation.py:39-43: command is the resolved
uvx path, args is the fixed list, env carries the API key verbatim. -/
def murfEntry (uvxPath apiKey : String) : Json :=
  .obj [("command", .str uvxPath),
        ("args", .arr [.str "murf-mcp"]),
        ("env", .obj [("MURF_API_KEY", .str apiKey)])]

/-- Failure modes of the merge, mirroring the Python exceptions that can
escape `update_config_file`. -/
inductive MergeErr where
  | jsonDecode : MergeErr    -- json.load raised on an empty or invalid document
  | attrErr : MergeErr       -- config.get on a non-dict document
  | typeErr : MergeErr       -- indexing a non-dict mcpServers value
  | fileNotFound : MergeErr  -- raise FileNotFoundError at installation.py:54
  | noInput : MergeErr       -- input() had no line to return
deriving DecidableEq

/-- The document transformation of installation.py:32-45, applied to the
parsed document. If the document is `null` or `config.get("mcpServers")`
is `None` (key absent, or present with value `null`), the WHOLE document
is replaced by a fresh one holding only an empty `mcpServers` mapping;
then `config["mcpServers"]["Murf"]` is assigned a fresh ServerEntry. A
non-object document makes `config.get` raise `AttributeError`; a
non-object, non-null `mcpServers` value makes the item assignment raise
`TypeError`. -/
def update_config_doc (doc : Json) (uvxPath apiKey : String) :
    Except MergeErr Json :=
  let entry := murfEntry uvxPath apiKey
  match doc with
  | .null => .ok (.obj [("mcpServers", .obj [("Murf", entry)])])
  | .obj kvs =>
      match lookupKey kvs "mcpServers" with
      | none => .ok (.obj [("mcpServers", .obj [("Murf", entry)])])
      | some .null => .ok (.obj [("mcpServers", .obj [("Murf", entry)])])
      | some (.obj servers) =>
          .ok (.obj (setKey kvs "mcpServers"
                       (.obj (setKey servers "Murf" entry))))
      | some _ => .error .typeErr
  | _ => .error .attrErr

/-- Documents on which installation.py:32-45 completes without raising:
`null`, or an object whose `mcpServers` key is absent, `null`, or itself
an object. -/
def mergeableDoc : Json → Bool
  | .null => true
  | .obj kvs =>
      match lookupKey kvs "mcpServers" with
      | none => true
      | some .null => true
      | some (.obj _) => true
      | some _ => false
  | _ => false

section AssocLemmas

theorem lookupKey_setKey_self (kvs : List (String × Json)) (k : String)
    (v : Json) : lookupKey (setKey kvs k v) k = some v := by
  unfold setKey
  by_cases h : kvs.any (fun p => p.1 == k)
  · rw [if_pos h]
    induction kvs with
    | nil => simp at h
    | cons p ps ih =>
        simp only [List.any_cons, Bool.or_eq_true] at h
        by_cases hp : p.1 == k
        · simp [lookupKey, List.find?, hp]
        · rcases h with h | h
          · exact absurd h hp
          · simpa [lookupKey, List.find?, hp] using ih h
  · rw [if_neg h]
    induction kvs with
    | nil => simp [lookupKey, List.find?]
    | cons p ps ih =>
        simp only [List.any_cons, Bool.or_eq_true, not_or] at h
        have hp : (p.1 == k) = false := by
          cases hb : p.1 == k
          · rfl
          · exact absurd hb h.1
        simpa [lookupKey, List.find?, hp] using ih h.2

theorem lookupKey_setKey_ne (kvs : List (String × Json)) (k k' : String)
    (v : Json) (hne : k' ≠ k) :
    lookupKey (setKey kvs k v) k' = lookupKey kvs k' := by
  unfold setKey
  by_cases h : kvs.any (fun p => p.1 == k)
  · rw [if_pos h]
    clear h
    induction kvs with
    | nil => rfl
    | cons p ps ih =>
        by_cases hp : p.1 == k
        · have hk : (k == k') = false := by
            cases hb : k == k'
            · rfl
            · exact absurd (eq_of_beq hb).symm hne
          have hp' : (p.1 == k') = false := by
            cases hb : p.1 == k'
            · rfl
            · exact absurd ((eq_of_beq hb).symm.trans (eq_of_beq hp)) hne
          simp [lookupKey, List.find?, hp, hk, hp'] at ih ⊢
          exact ih
        · by_cases hp' : p.1 == k'
          · simp [lookupKey, List.find?, hp, hp']
          · simp [lookupKey, List.find?, hp, hp'] at ih ⊢
            exact ih
  · rw [if_neg h]
    clear h
    induction kvs with
    | nil =>
        have hk : (k == k') = false := by
          cases hb : k == k'
          · rfl
          · exact absurd (eq_of_beq hb).symm hne
        simp [lookupKey, List.find?, hk]
    | cons p ps ih =>
        by_cases hp' : p.1 == k'
        · simp [lookupKey, List.find?, hp']
        · simp [lookupKey, List.find?, hp'] at ih ⊢
          exact ih

theorem setKey_any (kvs : List (String × Json)) (k : String) (v : Json) :
    (setKey kvs k v).any (fun p => p.1 == k) = true := by
  unfold setKey
  by_cases h : kvs.any (fun p => p.1 == k)
  · rw [if_pos h]
    simp only [List.any_eq_true] at h ⊢
    obtain ⟨p, hmem, hp⟩ := h
    refine ⟨(k, v), List.mem_map.2 ⟨p, hmem, ?_⟩, by simp⟩
    simp [hp]
  · rw [if_neg h]
    simp

theorem setKey_mem_key (kvs : List (String × Json)) (k : String) (v : Json)
    (p : String × Json) (hmem : p ∈ setKey kvs k v) (hp : p.1 == k) :
    p = (k, v) := by
  unfold setKey at hmem
  by_cases h : kvs.any (fun p => p.1 == k)
  · rw [if_pos h] at hmem
    obtain ⟨q, _, hq⟩ := List.mem_map.1 hmem
    by_cases hqk : q.1 == k
    · rw [if_pos hqk] at hq
      exact hq.symm
    · rw [if_neg hqk] at hq
      rw [← hq] at hp
      exact absurd hp hqk
  · rw [if_neg h] at hmem
    rcases List.mem_append.1 hmem with hmem | hmem
    · exfalso
      exact h (List.any_eq_true.2 ⟨p, hmem, hp⟩)
    · simpa using hmem

theorem map_id_of_fix (l : List (String × Json))
    (f : String × Json → String × Json) (h : ∀ p ∈ l, f p = p) :
    l.map f = l := by
  induction l with
  | nil => rfl
  | cons p ps ih =>
      simp only [List.map_cons, h p (List.mem_cons_self p ps)]
      rw [ih fun q hq => h q (List.mem_cons_of_mem p hq)]

theorem setKey_setKey_same (kvs : List (String × Json)) (k : String)
    (v : Json) : setKey (setKey kvs k v) k v = setKey kvs k v := by
  have hany := setKey_any kvs k v
  have hfix : ∀ p ∈ setKey kvs k v, (p.1 == k) = true → p = (k, v) :=
    fun p hp hk => setKey_mem_key kvs k v p hp hk
  generalize hl : setKey kvs k v = l at hany hfix ⊢
  unfold setKey
  rw [if_pos hany]
  refine map_id_of_fix _ _ fun p hp => ?_
  by_cases hk : p.1 == k
  · rw [if_pos hk, hfix p hp hk]
  · rw [if_neg hk]

end AssocLemmas

/-! ## The file system seen by the Configuration Merger -/

/-- The file system as `update_config_file` observes it: an association
list from path to the result of `json.load` on that file, `none` marking
a present file whose content json.load rejects (empty or invalid). An
absent path fails `os.path.exists`. -/
abbrev FS : Type := List (String × Option Json)

/-- Read a file and parse it: `none` when the path does not exist,
`some none` when it exists but parsing raises, `some (some d)` when it
parses to document `d`. -/
def readFile (fs : FS) (p : String) : Option (Option Json) :=
  match (List.find? (fun q => q.1 == p) fs) with
  | none => none
  | some q => some q.2

/-- The `os.path.exists` check of installation.py:27 and :51. -/
def fileExists (fs : FS) (p : String) : Bool :=
  (readFile fs p).isSome

/-- Writing a document back (seek 0 / dump / truncate): the path keeps its
place in the file system and now parses to exactly the written document. -/
def writeFile (fs : FS) (p : String) (d : Json) : FS :=
  if List.any fs (fun q => q.1 == p) then
    List.map (fun q => if q.1 == p then (p, some d) else q) fs
  else fs ++ [(p, some d)]

/-- Outcome of one call to the Configuration Merger. `pathPrompts` counts
the interactive path-correction prompts issued; `fs` is the file system
after the call (unchanged when an exception escapes); `result` carries the
path actually merged to and the document written there, or the exception
that escaped. -/
structure MergeRun where
  pathPrompts : Nat
  fs : FS
  result : Except MergeErr (String × Json)

/-- The existing-file branch of `update_config_file`
(installation.py:27-47): parse, transform via `update_config_doc`,
rewrite the file. -/
def merge_at (fs : FS) (p : String) (uvxPath apiKey : String) : MergeRun :=
  match readFile fs p with
  | none => ⟨0, fs, .error .fileNotFound⟩
  | some none => ⟨0, fs, .error .jsonDecode⟩
  | some (some doc) =>
      match update_config_doc doc uvxPath apiKey with
      | .error e => ⟨0, fs, .error e⟩
      | .ok d => ⟨0, writeFile fs p d, .ok (p, d)⟩

/-- The Configuration Merger, installation.py:26-54. When the path exists
it merges in place; otherwise it consumes one interactive prompt answer:
if the answered path exists it recurses on it, else it raises
`FileNotFoundError`. `prompts` is the stream of answers `input()` would
return; an exhausted stream models `input()` failing. The API key prompt
of installation.py:30 is the `apiKey` argument and is not counted in
`pathPrompts`. -/
def update_config_file (fs : FS) (uvxPath apiKey : String) :
    String → List String → MergeRun
  | p, [] =>
      if fileExists fs p then merge_at fs p uvxPath apiKey
      else ⟨1, fs, .error .noInput⟩
  | p, newPath :: rest =>
      if fileExists fs p then merge_at fs p uvxPath apiKey
      else if fileExists fs newPath then
        let r := update_config_file fs uvxPath apiKey newPath rest
        ⟨r.pathPrompts + 1, r.fs, r.result⟩
      else ⟨1, fs, .error .fileNotFound⟩

/-! ## Resolving the uvx command -/

/-- The `get_uvx_path` function, installation.py:13-24. `which_uvx` is the
outcome of the platform `which`/`where` subprocess run with `check=True`:
`.ok out` when uvx resolved with returncode 0 and stdout `out`, `.error ()`
when the lookup exited nonzero and `CalledProcessError` was raised. The
handler catches exactly that error and falls back to the literal string
"uvx"; an OS other than the three named falls through and returns `None`. -/
def get_uvx_path (os_type : String) (which_uvx : Except Unit String) :
    Option String :=
  if os_type = "Linux" ∨ os_type = "Darwin" then
    match which_uvx with
    | .ok out => some out.trim
    | .error _ => some "uvx"
  else if os_type = "Windows" then
    match which_uvx with
    | .ok out => some out.trim
    | .error _ => some "uvx"
  else none

/-! ## Download progress reporting -/

/-- The `reporthook` callback, installation.py:113-117, as the exact
rational value of the percentage it formats: downloaded bytes are
`block_num * block_size`, and the percentage is
`downloaded * 100 / total_size` guarded by `total_size > 0`, else 0. -/
def reporthook (block_num block_size total_size : ℕ) : ℚ :=
  if total_size > 0 then
    ((block_num : ℚ) * block_size * 100) / total_size
  else 0

/-! ## Windows PATH handling -/

/-- Python `s.split(os.pathsep)` on Windows, where `os.pathsep` is the
semicolon, over contents modelled as character lists. Splitting the empty
string yields one empty entry, exactly as in Python. -/
def splitSemi : List Char → List (List Char)
  | [] => [[]]
  | c :: cs =>
      let r := splitSemi cs
      if c = ';' then [] :: r
      else (c :: r.headD []) :: r.tail

/-- Python substring containment `pat in s` over character lists. -/
def occursIn (pat : List Char) : List Char → Bool
  | [] => pat.isEmpty
  | c :: cs => pat.isPrefixOf (c :: cs) || occursIn pat cs

/-- The marker line of installation.py:98. -/
def markerStr : List Char :=
  "# >>> Added by murf-mcp to include ffmpeg from uv <<<".toList

/-- The export line of installation.py:99 for a given ffmpeg directory. -/
def exportLine (ffmpeg_dir : List Char) : List Char :=
  "export PATH=\"".toList ++ ffmpeg_dir ++ ":$PATH\"".toList

/-- The block appended at installation.py:108: newline, marker, export
line, closing comment. -/
def murfBlock (ffmpeg_dir : List Char) : List Char :=
  '\n' :: markerStr ++ '\n' :: exportLine ffmpeg_dir
    ++ '\n' :: "# <<< End of murf-mcp changes >>>".toList ++ ['\n']

/-- The `update_shell_config` closure, installation.py:96-111: a missing
profile file reads as the empty content; if the marker already occurs the
file is left alone, otherwise the markered block is appended once. -/
def update_shell_config (ffmpeg_dir config_text : List Char) : List Char :=
  if occursIn markerStr config_text then config_text
  else config_text ++ murfBlock ffmpeg_dir

/-- The registry read-modify-write block of installation.py:150-169.
`current_path` is the value read from the user Environment key (the
`FileNotFoundError` handler makes a missing value the empty string);
`bin_path` is the resolved ffmpeg binary directory. Returns the value
written back to the registry (`none` when the entry was already present
and the write is skipped) together with the shell-profile contents after
the block, starting from `profile`. The profile is touched only on the
branch that performs the registry write. -/
def windows_path_update (current_path bin_path profile : List Char) :
    Option (List Char) × List Char :=
  let path_entries := splitSemi current_path
  if bin_path ∈ path_entries then (none, profile)
  else
    let new_path_value :=
      if current_path = [] then bin_path
      else current_path ++ ';' :: bin_path
    (some new_path_value, update_shell_config bin_path profile)

/-- The `install_ffmpeg_on_windows` tail, installation.py:142-169, after
download and extraction have resolved `bin_path` (those steps are opaque
I/O; their failures abort earlier). When the winreg module is unavailable
the function prints a manual-remediation message and RETURNS normally
(installation.py:146-148), performing no registry or profile change;
otherwise it runs the registry read-modify-write block. -/
def install_ffmpeg_on_windows (winreg_available : Bool)
    (current_path bin_path profile : List Char) :
    Option (List Char) × List Char :=
  if winreg_available = false then (none, profile)
  else windows_path_update current_path bin_path profile

/-! ## Dependency resolution and the orchestrator -/

/-- `subprocess.run(cmd, check=True)` on a process exiting with code `rc`:
raises `CalledProcessError` exactly when `rc` is nonzero. -/
def runChecked (rc : Nat) : Except Unit Nat :=
  if rc ≠ 0 then .error () else .ok rc

/-- Result of one platform installer call: whether the install action
(`brew install ffmpeg`, resp. `install_ffmpeg_on_windows()`) was ever
invoked, and the `sys.exit` code if the call exited the process (`none`
means it returned and the run went on to the config merge). -/
structure InstallRun where
  ran_installer : Bool
  exit_code : Option Nat
deriving DecidableEq

/-- The try-block of `install_on_macOS`, installation.py:57-74, up to the
config-file update: `which brew` then `which ffmpeg`, both with
`check=True`; the returned Bool tells whether `brew install ffmpeg` was
invoked. The version check of lines 58-61 makes no checked call and is
omitted. The dead guard of line 63 is kept as in the source. -/
def install_on_macOS_body (brew_rc ffmpeg_rc : Nat) : Except Unit Bool := do
  let brew ← runChecked brew_rc
  if brew ≠ 0 then
    return false
  let ffmpeg ← runChecked ffmpeg_rc
  if ffmpeg = 0 then
    return false
  else
    return true

/-- `install_on_macOS`, installation.py:56-80: any exception escaping the
try-block is caught and turned into `sys.exit(1)` before the merge is
reached. -/
def install_on_macOS (brew_rc ffmpeg_rc : Nat) : InstallRun :=
  match install_on_macOS_body brew_rc ffmpeg_rc with
  | .ok ran => ⟨ran, none⟩
  | .error _ => ⟨false, some 1⟩

/-- The try-block of `install_on_windows`, installation.py:179-192, up to
the config-file update: `where ffmpeg` with `check=True`; the returned
Bool tells whether `install_ffmpeg_on_windows()` was invoked. -/
def install_on_windows_body (where_rc : Nat) : Except Unit Bool := do
  let ffmpeg ← runChecked where_rc
  if ffmpeg = 0 then
    return false
  else
    return true

/-- `install_on_windows`, installation.py:178-198: any exception escaping
the try-block is caught and turned into `sys.exit(1)`. -/
def install_on_windows (where_rc : Nat) : InstallRun :=
  match install_on_windows_body where_rc with
  | .ok ran => ⟨ran, none⟩
  | .error _ => ⟨false, some 1⟩

/-- The dispatch of `main`, installation.py:200-212. `sub_exit` is the
exit behaviour of the platform installer invoked on the Darwin and Windows
branches (the `exit_code` field of its `InstallRun`). The Linux branch
only prints and returns; only the final else calls `sys.exit(1)`. The
returned value is the `sys.exit` code, `none` when `main` returns
normally. -/
def mainDispatch (os_type : String) (sub_exit : Option Nat) : Option Nat :=
  if os_type = "Linux" then none
  else if os_type = "Darwin" then sub_exit
  else if os_type = "Windows" then sub_exit
  else some 1

/-- The process exit status: the `sys.exit` code when one was raised, and
0 when the script runs off the end of `main`. -/
def process_exit_code (r : Option Nat) : Nat := r.getD 0

/-! ## Lemmas about PATH splitting -/

theorem splitSemi_ne_nil (l : List Char) : splitSemi l ≠ [] := by
  cases l with
  | nil => simp [splitSemi]
  | cons c cs =>
      simp only [splitSemi]
      by_cases h : c = ';'
      · simp [h]
      · simp [h]

theorem splitSemi_append (a b : List Char) :
    splitSemi (a ++ ';' :: b) = splitSemi a ++ splitSemi b := by
  induction a with
  | nil => simp [splitSemi]
  | cons c a ih =>
      by_cases h : c = ';'
      · subst h
        simp [splitSemi, ih]
      · obtain ⟨g, gs, hg⟩ : ∃ g gs, splitSemi a = g :: gs := by
          cases hsa : splitSemi a with
          | nil => exact absurd hsa (splitSemi_ne_nil a)
          | cons g gs => exact ⟨g, gs, rfl⟩
        simp [splitSemi, h, ih, hg]

theorem splitSemi_no_semi (b : List Char) (h : ';' ∉ b) :
    splitSemi b = [b] := by
  induction b with
  | nil => rfl
  | cons c cs ih =>
      have hc : ¬ c = ';' := fun hc => h (by simp [hc])
      have hcs : ';' ∉ cs := fun hm => h (List.mem_cons_of_mem c hm)
      simp [splitSemi, hc, ih hcs]

/-! ## Lemmas about substring search -/

theorem isPrefixOf_self_append (p r : List Char) :
    p.isPrefixOf (p ++ r) = true := by
  induction p with
  | nil => cases r <;> rfl
  | cons c cs ih => simp [List.isPrefixOf, ih]

theorem occursIn_append_self (p r : List Char) :
    occursIn p (p ++ r) = true := by
  cases p with
  | nil =>
      cases r with
      | nil => rfl
      | cons c cs => simp [occursIn, List.isPrefixOf]
  | cons c cs =>
      have hs : occursIn (c :: cs) ((c :: cs) ++ r) =
          ((c :: cs).isPrefixOf ((c :: cs) ++ r)
            || occursIn (c :: cs) (cs ++ r)) := rfl
      rw [hs, isPrefixOf_self_append]
      simp

theorem occursIn_append_right (p a b : List Char)
    (h : occursIn p b = true) : occursIn p (a ++ b) = true := by
  induction a with
  | nil => simpa using h
  | cons c a ih =>
      have hs : occursIn p (c :: (a ++ b)) =
          (p.isPrefixOf (c :: (a ++ b)) || occursIn p (a ++ b)) := by
        cases p <;> rfl
      rw [List.cons_append, hs, ih]
      simp

theorem occursIn_of_parts (p a b l : List Char)
    (h : l = a ++ (p ++ b)) : occursIn p l = true := by
  rw [h]
  exact occursIn_append_right _ _ _ (occursIn_append_self _ _)

theorem occursIn_marker_block (d : List Char) :
    occursIn markerStr (murfBlock d) = true := by
  refine occursIn_of_parts _ ['\n']
    ('\n' :: exportLine d ++ '\n'
      :: "# <<< End of murf-mcp changes >>>".toList ++ ['\n']) _ ?_
  simp [murfBlock]

/-! ## Lemmas about the merge result -/

theorem update_config_doc_murf (doc : Json) (uvx api : String)
    (h : mergeableDoc doc = true) :
    ∃ d, update_config_doc doc uvx api = .ok d ∧
      serverEntryOf d "Murf" = some (murfEntry uvx api) := by
  cases doc with
  | null =>
      refine ⟨_, rfl, ?_⟩
      simp [serverEntryOf, topKey, lookupKey, List.find?]
  | bool b => simp [mergeableDoc] at h
  | num n => simp [mergeableDoc] at h
  | str s => simp [mergeableDoc] at h
  | arr xs => simp [mergeableDoc] at h
  | obj kvs =>
      cases hm : lookupKey kvs "mcpServers" with
      | none =>
          refine ⟨.obj [("mcpServers", .obj [("Murf", murfEntry uvx api)])],
                  ?_, ?_⟩
          · simp only [update_config_doc, hm]
          · simp [serverEntryOf, topKey, lookupKey, List.find?]
      | some v =>
          cases v with
          | null =>
              refine ⟨.obj [("mcpServers", .obj [("Murf", murfEntry uvx api)])],
                      ?_, ?_⟩
              · simp only [update_config_doc, hm]
              · simp [serverEntryOf, topKey, lookupKey, List.find?]
          | obj servers =>
              refine ⟨.obj (setKey kvs "mcpServers"
                        (.obj (setKey servers "Murf" (murfEntry uvx api)))),
                      ?_, ?_⟩
              · simp only [update_config_doc, hm]
              · simp only [serverEntryOf, topKey, lookupKey_setKey_self]
          | bool b => simp [mergeableDoc, hm] at h
          | num n => simp [mergeableDoc, hm] at h
          | str s => simp [mergeableDoc, hm] at h
          | arr xs => simp [mergeableDoc, hm] at h

theorem merge_at_pathPrompts (fs : FS) (q uvx api : String) :
    (merge_at fs q uvx api).pathPrompts = 0 := by
  unfold merge_at
  split
  · rfl
  · rfl
  · split
    · rfl
    · rfl

theorem update_config_file_exists (fs : FS) (uvx api q : String)
    (l : List String) (h : fileExists fs q = true) :
    update_config_file fs uvx api q l = merge_at fs q uvx api := by
  cases l with
  | nil =>
      unfold update_config_file
      rw [if_pos h]
  | cons a l =>
      unfold update_config_file
      rw [if_pos h]

theorem merge_at_ok (fs : FS) (q uvx api : String) (doc d : Json)
    (hread : readFile fs q = some (some doc))
    (hok : update_config_doc doc uvx api = .ok d) :
    merge_at fs q uvx api = ⟨0, writeFile fs q d, .ok (q, d)⟩ := by
  unfold merge_at
  rw [hread]
  simp only [hok]

/-! ## Claim theorems -/

/-- C1: the claim says that when ffmpeg does not resolve on the execution
path the program proceeds to install it (brew on macOS, the Windows
installer on Windows) and does not abort. The code disagrees: because the
`which ffmpeg` / `where ffmpeg` subprocess runs use `check=True`, a
nonzero returncode raises `CalledProcessError` inside the try-block, which
the blanket handler converts to `sys.exit(1)`; the install branch is never
reached on either platform. This theorem evaluates the embedded code at
the failing input (brew present with returncode 0, ffmpeg lookup
returncode 1). -/
theorem c1_ffmpeg_absent_aborts :
    install_on_macOS 0 1 = ⟨false, some 1⟩ ∧
    install_on_windows 1 = ⟨false, some 1⟩ :=
  ⟨rfl, rfl⟩

/-- C4 counterexample: on Linux, `main` only prints the unsupported
message and returns, so the process exits with status 0, not a failure
status as the claim states. -/
theorem c4_counterexample :
    process_exit_code (mainDispatch "Linux" none) = 0 := rfl

/-- C4 (amended): the Linux branch of `main` prints and returns, so the
process exits 0; only OS families other than Linux, Darwin and Windows
reach the `sys.exit(1)` branch. On Windows, an unavailable winreg module
is non-fatal: `install_ffmpeg_on_windows` prints a manual-remediation
message and returns normally with no registry or profile change, and a
run whose installer returns normally finishes with exit status 0. -/
theorem c4_exit_statuses (os : String) (sub : Option Nat)
    (current bin profile : List Char)
    (h1 : os ≠ "Linux") (h2 : os ≠ "Darwin") (h3 : os ≠ "Windows") :
    process_exit_code (mainDispatch "Linux" sub) = 0 ∧
    mainDispatch os sub = some 1 ∧
    process_exit_code (mainDispatch os sub) = 1 ∧
    install_ffmpeg_on_windows false current bin profile = (none, profile) ∧
    process_exit_code (mainDispatch "Windows" none) = 0 := by
  have hd : mainDispatch os sub = some 1 := by
    simp [mainDispatch, h1, h2, h3]
  refine ⟨rfl, hd, ?_, rfl, rfl⟩
  rw [hd]
  rfl

/-- C4 witness: the amended statement at the concrete OS string
"FreeBSD". -/
theorem c4_exit_statuses_witness :
    process_exit_code (mainDispatch "Linux" (some 1)) = 0 ∧
    mainDispatch "FreeBSD" (some 1) = some 1 ∧
    process_exit_code (mainDispatch "FreeBSD" (some 1)) = 1 ∧
    install_ffmpeg_on_windows false ['a'] ['b'] ['c'] = (none, ['c']) ∧
    process_exit_code (mainDispatch "Windows" none) = 0 :=
  c4_exit_statuses "FreeBSD" (some 1) ['a'] ['b'] ['c']
    (by decide) (by decide) (by decide)

/-- C5: the registry PATH update is de-duplicating and non-destructive.
If the resolved binary directory is already a distinct semicolon-separated
entry of the prior value, no registry write happens. Otherwise exactly one
value is written: the old value with the directory appended (just the
directory when the old value was empty or missing); its entry list is the
old entry list with the directory appended once, so no pre-existing entry
is dropped and the directory occurs exactly once. The hypothesis that the
directory contains no semicolon holds for every real Windows path. -/
theorem c5_path_write_dedup (current bin profile : List Char)
    (hsep : ';' ∉ bin) :
    (bin ∈ splitSemi current →
      (windows_path_update current bin profile).1 = none) ∧
    (bin ∉ splitSemi current →
      (windows_path_update current bin profile).1 =
        some (if current = [] then bin else current ++ ';' :: bin) ∧
      (current ≠ [] →
        splitSemi (current ++ ';' :: bin) = splitSemi current ++ [bin] ∧
        (splitSemi (current ++ ';' :: bin)).count bin = 1) ∧
      (splitSemi bin).count bin = 1) := by
  constructor
  · intro h
    simp [windows_path_update, h]
  · intro h
    have hbin : splitSemi bin = [bin] := splitSemi_no_semi bin hsep
    refine ⟨by simp [windows_path_update, h], fun _ => ?_, by simp [hbin]⟩
    have happ : splitSemi (current ++ ';' :: bin) =
        splitSemi current ++ [bin] := by
      rw [splitSemi_append, hbin]
    refine ⟨happ, ?_⟩
    rw [happ, List.count_append]
    have h0 : (splitSemi current).count bin = 0 := List.count_eq_zero.mpr h
    simp [h0]

/-- C5 witness: a one-entry PATH gaining a new directory. -/
theorem c5_path_write_dedup_witness :
    (windows_path_update ['a'] ['b'] []).1 =
      some (if (['a'] : List Char) = [] then ['b']
            else ['a'] ++ ';' :: ['b']) ∧
    (splitSemi (['a'] ++ ';' :: ['b'])).count ['b'] = 1 := by
  have h := (c5_path_write_dedup ['a'] ['b'] [] (by decide)).2 (by decide)
  exact ⟨h.1, (h.2.1 (by decide)).2⟩

/-- C7: the shell-profile patch is marker-guarded. When the marker already
occurs in the profile text the function returns without writing and the
contents are unchanged; when it is absent exactly the one markered block
is appended; and applying the update twice equals applying it once, so the
block is inserted at most once over any number of runs. -/
theorem c7_shell_profile_idempotent (bin profile : List Char) :
    (occursIn markerStr profile = true →
      update_shell_config bin profile = profile) ∧
    (occursIn markerStr profile = false →
      update_shell_config bin profile = profile ++ murfBlock bin) ∧
    update_shell_config bin (update_shell_config bin profile) =
      update_shell_config bin profile := by
  refine ⟨fun h => by simp [update_shell_config, h],
          fun h => by simp [update_shell_config, h], ?_⟩
  by_cases h : occursIn markerStr profile = true
  · simp [update_shell_config, h]
  · have h' : occursIn markerStr profile = false := by
      cases hb : occursIn markerStr profile
      · rfl
      · exact absurd hb h
    have h2 : occursIn markerStr (profile ++ murfBlock bin) = true :=
      occursIn_append_right _ _ _ (occursIn_marker_block bin)
    simp [update_shell_config, h', h2]

/-- C7 witness: a profile consisting of exactly the marker line is left
unchanged. -/
theorem c7_shell_profile_idempotent_witness :
    update_shell_config ['b'] markerStr = markerStr :=
  (c7_shell_profile_idempotent ['b'] markerStr).1
    (by simpa using occursIn_append_self markerStr [])

/-- C8 counterexample: the reported percentage is not capped at 100. With
total size 100 and two blocks of 64 bytes the hook reports 128 percent,
refuting the claim that the percentage reaches 100 without exceeding it. -/
theorem c8_counterexample : 100 < reporthook 2 64 100 := by
  norm_num [reporthook]

/-- C8 (amended): for a positive total size the reported percentage is
non-decreasing in the block count, equals 100 exactly when the byte count
equals the total, and is at least 100 at completion — but it may exceed
100 when the block-granular byte count overshoots the total, since the
code applies no cap. For total size 0 the guard avoids the division and
reports 0. -/
theorem c8_progress_monotone (n1 n2 bs ts : ℕ) (h : n1 ≤ n2) :
    reporthook n1 bs ts ≤ reporthook n2 bs ts ∧
    (0 < ts → n2 * bs = ts → reporthook n2 bs ts = 100) ∧
    (0 < ts → ts ≤ n2 * bs → 100 ≤ reporthook n2 bs ts) ∧
    reporthook n1 bs 0 = 0 := by
  refine ⟨?_, ?_, ?_, by simp [reporthook]⟩
  · unfold reporthook
    by_cases hts : ts > 0
    · rw [if_pos hts, if_pos hts]
      have hts' : (0 : ℚ) < ts := by exact_mod_cast hts
      have h1 : (n1 : ℚ) ≤ n2 := by exact_mod_cast h
      have hmul : (n1 : ℚ) * bs * 100 ≤ (n2 : ℚ) * bs * 100 := by
        have hb : (0 : ℚ) ≤ bs := by positivity
        nlinarith
      exact div_le_div_of_nonneg_right hmul hts'.le
    · rw [if_neg hts, if_neg hts]
  · intro hts heq
    unfold reporthook
    rw [if_pos hts]
    have hts' : (ts : ℚ) ≠ 0 := by
      exact_mod_cast Nat.pos_iff_ne_zero.mp hts
    have hc : (n2 : ℚ) * bs = ts := by exact_mod_cast heq
    rw [hc]
    field_simp
  · intro hts hle
    unfold reporthook
    rw [if_pos hts]
    have hts' : (0 : ℚ) < ts := by exact_mod_cast hts
    rw [le_div_iff₀ hts']
    have hc : (ts : ℚ) ≤ (n2 : ℚ) * bs := by exact_mod_cast hle
    nlinarith

/-- C8 witness: with total size 100 and 50-byte blocks, the percentage
grows from block 1 to block 2 and is exactly 100 at completion; a zero
total size reports 0. -/
theorem c8_progress_monotone_witness :
    reporthook 1 50 100 ≤ reporthook 2 50 100 ∧
    reporthook 2 50 100 = 100 ∧
    reporthook 1 50 0 = 0 := by
  have h := c8_progress_monotone 1 2 50 100 (by norm_num)
  exact ⟨h.1, h.2.1 (by norm_num) (by norm_num), h.2.2.2⟩

/-- C9: when the `which`/`where` lookup of uvx exits nonzero, the
`CalledProcessError` is caught inside `get_uvx_path`, which returns the
literal string "uvx"; the merge then completes on any mergeable document
and the managed entry records command "uvx" rather than an absolute
path. -/
theorem c9_uvx_fallback (os api : String) (doc : Json)
    (hos : os = "Linux" ∨ os = "Darwin" ∨ os = "Windows")
    (hdoc : mergeableDoc doc = true) :
    get_uvx_path os (.error ()) = some "uvx" ∧
    ∃ d, update_config_doc doc "uvx" api = .ok d ∧
      serverEntryOf d "Murf" = some (murfEntry "uvx" api) ∧
      topKey (murfEntry "uvx" api) "command" = some (.str "uvx") := by
  constructor
  · rcases hos with h | h | h <;> simp [get_uvx_path, h]
  · obtain ⟨d, h1, h2⟩ := update_config_doc_murf doc "uvx" api hdoc
    exact ⟨d, h1, h2, by simp [murfEntry, topKey, lookupKey, List.find?]⟩

/-- C9 witness: macOS with a failed uvx lookup over a null document. -/
theorem c9_uvx_fallback_witness :
    get_uvx_path "Darwin" (.error ()) = some "uvx" :=
  (c9_uvx_fallback "Darwin" "k" .null (Or.inr (Or.inl rfl)) rfl).1

/-- C10: the shell profile is patched only on the branch that also writes
the registry PATH value. When the binary directory is already a PATH
entry, the returned profile contents equal the input profile for every
input profile — including profiles that do not contain the marker block —
and no registry write occurs. -/
theorem c10_profile_only_with_path_write (current bin profile : List Char)
    (h : bin ∈ splitSemi current) :
    (windows_path_update current bin profile).2 = profile ∧
    (windows_path_update current bin profile).1 = none := by
  simp [windows_path_update, h]

/-- C10 witness: a markerless profile stays byte-identical when the
directory is already on PATH. -/
theorem c10_profile_only_with_path_write_witness :
    (windows_path_update ['b'] ['b'] ['x']).2 = ['x'] ∧
    (windows_path_update ['b'] ['b'] ['x']).1 = none :=
  c10_profile_only_with_path_write ['b'] ['b'] ['x'] (by decide)

/-- C2 counterexample: the claim quantifies over every existing config
file, but a parseable document that lacks the `mcpServers` mapping is
replaced wholesale at installation.py:33-36, so its unrelated top-level
key "foo" is gone after the merge instead of being present and
unchanged. -/
theorem c2_counterexample :
    lookupKey [("foo", .num 1)] "foo" = some (.num 1) ∧
    update_config_doc (.obj [("foo", .num 1)]) "u" "k" =
      .ok (.obj [("mcpServers", .obj [("Murf", murfEntry "u" "k")])]) ∧
    topKey (.obj [("mcpServers", .obj [("Murf", murfEntry "u" "k")])])
      "foo" = none :=
  ⟨rfl, rfl, rfl⟩

/-- C2 (amended): for every existing config file whose document carries a
top-level `mcpServers` object, the merge is idempotent and
non-destructive: a second run with identical inputs returns the exact
document of the first run (so the serialized file, a deterministic
function of the document, is byte-identical), the managed "Murf" entry is
the freshly built ServerEntry, every unrelated top-level key keeps its
value, and every entry under a different server name is untouched. When
the document lacks the `mcpServers` mapping it is replaced wholesale and
unrelated top-level keys are lost (see the counterexample). -/
theorem c2_merge_idempotent_nondestructive
    (kvs servers : List (String × Json)) (uvx api : String)
    (hget : lookupKey kvs "mcpServers" = some (.obj servers)) :
    ∃ doc1, update_config_doc (.obj kvs) uvx api = .ok doc1 ∧
      update_config_doc doc1 uvx api = .ok doc1 ∧
      serverEntryOf doc1 "Murf" = some (murfEntry uvx api) ∧
      (∀ k v, k ≠ "mcpServers" → lookupKey kvs k = some v →
        topKey doc1 k = some v) ∧
      (∀ nm e, nm ≠ "Murf" → lookupKey servers nm = some e →
        serverEntryOf doc1 nm = some e) := by
  refine ⟨.obj (setKey kvs "mcpServers"
            (.obj (setKey servers "Murf" (murfEntry uvx api)))),
          ?_, ?_, ?_, ?_, ?_⟩
  · simp only [update_config_doc, hget]
  · have hget1 : lookupKey (setKey kvs "mcpServers"
        (.obj (setKey servers "Murf" (murfEntry uvx api)))) "mcpServers" =
        some (.obj (setKey servers "Murf" (murfEntry uvx api))) :=
      lookupKey_setKey_self _ _ _
    simp only [update_config_doc, hget1, setKey_setKey_same]
  · simp only [serverEntryOf, topKey, lookupKey_setKey_self]
  · intro k v hk hv
    simp only [topKey]
    rw [lookupKey_setKey_ne _ _ _ _ hk, hv]
  · intro nm e hnm he
    simp only [serverEntryOf, topKey, lookupKey_setKey_self]
    rw [lookupKey_setKey_ne _ _ _ _ hnm, he]

/-- C2 witness: a config with an unrelated "Other" server entry and an
unrelated top-level key merges idempotently. -/
theorem c2_merge_idempotent_nondestructive_witness :
    ∃ doc1,
      update_config_doc
        (.obj [("mcpServers", .obj [("Other", .bool true)]),
               ("foo", .num 1)]) "u" "k" = .ok doc1 ∧
      update_config_doc doc1 "u" "k" = .ok doc1 ∧
      topKey doc1 "foo" = some (.num 1) ∧
      serverEntryOf doc1 "Other" = some (.bool true) := by
  obtain ⟨d, h1, h2, -, h4, h5⟩ :=
    c2_merge_idempotent_nondestructive
      [("mcpServers", .obj [("Other", .bool true)]), ("foo", .num 1)]
      [("Other", .bool true)] "u" "k" rfl
  exact ⟨d, h1, h2, h4 "foo" (.num 1) (by decide) rfl,
         h5 "Other" (.bool true) (by decide) rfl⟩

/-- C3 counterexample: a parseable unrelated top-level key "theme" is NOT
preserved when the document lacks the server mapping — the document is
replaced wholesale — and a file whose content json.load rejects makes the
merge raise instead of initializing a fresh mapping and completing. -/
theorem c3_counterexample :
    topKey (.obj [("theme", .str "dark")]) "theme" = some (.str "dark") ∧
    update_config_doc (.obj [("theme", .str "dark")]) "u" "k" =
      .ok (.obj [("mcpServers", .obj [("Murf", murfEntry "u" "k")])]) ∧
    topKey (.obj [("mcpServers", .obj [("Murf", murfEntry "u" "k")])])
      "theme" = none ∧
    (update_config_file [("cfg", none)] "u" "k" "cfg" []).result =
      .error .jsonDecode :=
  ⟨rfl, rfl, rfl, rfl⟩

/-- C3 (amended): when the parsed document is JSON null, or is an object
whose `mcpServers` key is absent or null, installation.py:33-36 replaces
the WHOLE document with a fresh one containing only the empty mapping
(then upserted with the Murf entry), dropping unrelated top-level keys
rather than preserving them; and a document that is empty or invalid JSON
makes `json.load` raise, so the merge fails fatally instead of
initializing a fresh mapping. -/
theorem c3_reset_drops_keys_and_parse_is_fatal
    (kvs : List (String × Json)) (fs : FS)
    (p uvx api : String) (prompts : List String)
    (hbad : lookupKey kvs "mcpServers" = none ∨
            lookupKey kvs "mcpServers" = some .null)
    (hinv : readFile fs p = some none) :
    update_config_doc (.obj kvs) uvx api =
      .ok (.obj [("mcpServers", .obj [("Murf", murfEntry uvx api)])]) ∧
    update_config_doc .null uvx api =
      .ok (.obj [("mcpServers", .obj [("Murf", murfEntry uvx api)])]) ∧
    (update_config_file fs uvx api p prompts).result =
      .error .jsonDecode ∧
    (update_config_file fs uvx api p prompts).fs = fs := by
  have hex : fileExists fs p = true := by
    rw [fileExists, hinv]
    rfl
  have hm : merge_at fs p uvx api = ⟨0, fs, .error .jsonDecode⟩ := by
    unfold merge_at
    rw [hinv]
  have hrun : update_config_file fs uvx api p prompts =
      ⟨0, fs, .error .jsonDecode⟩ := by
    rw [update_config_file_exists fs uvx api p prompts hex, hm]
  refine ⟨?_, rfl, ?_, ?_⟩
  · rcases hbad with h | h <;> simp only [update_config_doc, h]
  · rw [hrun]
  · rw [hrun]

/-- C3 witness: a document with only a "theme" key, and a file whose
content does not parse. -/
theorem c3_reset_drops_keys_and_parse_is_fatal_witness :
    update_config_doc (.obj [("theme", .str "dark")]) "u" "k" =
      .ok (.obj [("mcpServers", .obj [("Murf", murfEntry "u" "k")])]) ∧
    (update_config_file [("cfg", none)] "u" "k" "cfg" ["x"]).result =
      .error .jsonDecode := by
  have h := c3_reset_drops_keys_and_parse_is_fatal
    [("theme", .str "dark")] [("cfg", none)] "cfg" "u" "k" ["x"]
    (Or.inl rfl) rfl
  exact ⟨h.1, h.2.2.1⟩

/-- C6 counterexample: the claim says that whenever the user-supplied
corrected path exists, the merge succeeds at the corrected location. It
does not: here the corrected path "bad" exists, but its content is one
`json.load` rejects, so the recursive call raises `JSONDecodeError` (no
handler surrounds the load) and the merge fails instead of succeeding. -/
theorem c6_counterexample :
    fileExists [("bad", none)] "bad" = true ∧
    (update_config_file [("bad", none)] "u" "k" "missing" ["bad"]).result =
      .error .jsonDecode :=
  ⟨rfl, rfl⟩

/-- C6 (amended): when the configured path is missing, the merger consumes
exactly one interactive path prompt. If the corrected path exists AND its
document parses to a mergeable one (null, or an object whose `mcpServers`
key is absent, null or an object), the merge succeeds at the corrected
location and rewrites exactly that file; an existing corrected file that
fails to parse or is non-mergeable makes the merge raise instead (see the
counterexample). If the corrected path does not exist, the run fails with
`FileNotFoundError`, the file system is unchanged (no file is created
anywhere), and no further prompt is consumed regardless of how many
further answers are available. -/
theorem c6_missing_path_recovery (fs : FS) (p newPath uvx api : String)
    (rest : List String) (doc : Json)
    (hmiss : fileExists fs p = false) :
    (update_config_file fs uvx api p (newPath :: rest)).pathPrompts = 1 ∧
    (readFile fs newPath = some (some doc) → mergeableDoc doc = true →
      ∃ d, update_config_doc doc uvx api = .ok d ∧
        (update_config_file fs uvx api p (newPath :: rest)).result =
          .ok (newPath, d) ∧
        (update_config_file fs uvx api p (newPath :: rest)).fs =
          writeFile fs newPath d) ∧
    (fileExists fs newPath = false →
      (update_config_file fs uvx api p (newPath :: rest)).result =
        .error .fileNotFound ∧
      (update_config_file fs uvx api p (newPath :: rest)).fs = fs) := by
  have hstep : update_config_file fs uvx api p (newPath :: rest) =
      if fileExists fs newPath then
        ⟨(update_config_file fs uvx api newPath rest).pathPrompts + 1,
         (update_config_file fs uvx api newPath rest).fs,
         (update_config_file fs uvx api newPath rest).result⟩
      else ⟨1, fs, .error .fileNotFound⟩ := by
    conv_lhs => unfold update_config_file
    rw [if_neg (by simp [hmiss])]
  by_cases hnew : fileExists fs newPath = true
  · have hinner : update_config_file fs uvx api newPath rest =
        merge_at fs newPath uvx api :=
      update_config_file_exists fs uvx api newPath rest hnew
    rw [hstep, if_pos hnew, hinner]
    refine ⟨by rw [merge_at_pathPrompts], ?_, ?_⟩
    · intro hread hdoc
      obtain ⟨d, hok, -⟩ := update_config_doc_murf doc uvx api hdoc
      rw [merge_at_ok fs newPath uvx api doc d hread hok]
      exact ⟨d, hok, rfl, rfl⟩
    · intro hfalse
      rw [hnew] at hfalse
      cases hfalse
  · have hnew' : fileExists fs newPath = false := by
      cases hb : fileExists fs newPath
      · rfl
      · exact absurd hb hnew
    rw [hstep, if_neg (by simp [hnew'])]
    refine ⟨rfl, ?_, fun _ => ⟨rfl, rfl⟩⟩
    intro hread hdoc
    exfalso
    have : fileExists fs newPath = true := by
      rw [fileExists, hread]
      rfl
    rw [this] at hnew'
    cases hnew'

/-- C6 witness: a missing configured path "missing" recovered at the
existing path "good" holding a null document: one prompt, successful merge
there; and with a bad corrected path the run fails with the file system
unchanged. -/
theorem c6_missing_path_recovery_witness :
    (update_config_file [("good", some .null)] "u" "k" "missing"
      ["good"]).pathPrompts = 1 ∧
    (∃ d,
      (update_config_file [("good", some .null)] "u" "k" "missing"
        ["good"]).result = .ok ("good", d)) ∧
    (update_config_file [("good", some .null)] "u" "k" "missing"
      ["bad", "more"]).result = .error .fileNotFound := by
  have h1 := c6_missing_path_recovery [("good", some .null)]
    "missing" "good" "u" "k" [] .null rfl
  have h2 := c6_missing_path_recovery [("good", some .null)]
    "missing" "bad" "u" "k" ["more"] .null rfl
  obtain ⟨d, -, hr, -⟩ := h1.2.1 rfl rfl
  exact ⟨h1.1, ⟨d, hr⟩, (h2.2.2 rfl).1⟩

end Installation
